import Mathlib

/-!
Shallow embedding of `include/tins/memory_helpers.h` (libtins):
`Tins::Memory::InputMemoryStream` (the spec's ReadCursor) and
`Tins::Memory::OutputMemoryStream` (the spec's WriteCursor).

Bytes are modelled as `Nat` (a well-formed byte is `< 256`); buffers as
`List Nat`. Machine pointers into the caller's region are modelled by the
list of bytes at and after the cursor (reader) or by the full region
contents plus an offset (writer). Exceptions (`malformed_packet`,
`serialization_error` from exceptions.h) are modelled as an error kind;
every operation returns the error outcome together with the stream state
after the call, so that partial mutation before a throw would be visible.
-/

namespace Tins
namespace Memory

/-- The two error kinds thrown by the streams: `malformed_packet` is the
spec's `MalformedInput`, `serialization_error` is the spec's
`SerializationCapacityExceeded`. -/
inductive StreamError where
  | malformed_packet
  | serialization_error
deriving DecidableEq, Repr

/-- Little-endian interpretation of a byte list as a natural number
(byte 0 is least significant). This is what `std::memcpy` from a byte
buffer into an integer yields on a little-endian host. -/
def bytesToNatLE : List Nat → Nat
  | [] => 0
  | b :: bs => b + 256 * bytesToNatLE bs

/-- The `w` little-endian bytes of a value: what `std::memcpy` from an
integer of width `w` into a byte buffer produces on a little-endian host. -/
def natToBytesLE : Nat → Nat → List Nat
  | 0, _ => []
  | w + 1, v => (v % 256) :: natToBytesLE w (v / 256)

/-- Reversing the `w`-byte representation of a `w`-byte-wide integer. -/
def byteSwap (w v : Nat) : Nat :=
  bytesToNatLE ((natToBytesLE w v).reverse)

/-- Modelled from the spec: `Endian::le_to_host` (endianness.h is not part
of the shown source). On a little-endian host it is the identity; the
composite `read_le = le_to_host ∘ memcpy` is host-independent. -/
def le_to_host (_w v : Nat) : Nat := v

/-- Modelled from the spec: `Endian::be_to_host`; on a little-endian host
it swaps the `w` bytes of the value. -/
def be_to_host (w v : Nat) : Nat := byteSwap w v

/-- Modelled from the spec: `Endian::host_to_le` (identity on a
little-endian host). -/
def host_to_le (_w v : Nat) : Nat := v

/-- Modelled from the spec: `Endian::host_to_be` (byte swap on a
little-endian host). -/
def host_to_be (w v : Nat) : Nat := byteSwap w v

/-- Modelled from the spec: `IPv6Address::address_size` (ipv6_address.h is
not part of the shown source; the spec treats addresses as opaque
fixed-width byte sequences, 16 bytes for the scenario-E address type). -/
def IPv6_address_size : Nat := 16

/-- `InputMemoryStream`: `buffer_` is the bytes of the caller's region at
and after the cursor position; `size_` is the remaining-length counter
(normally `≤ buffer_.length`, but `size(new_size)` can set it freely, as
in the source). -/
structure InputMemoryStream where
  buffer_ : List Nat
  size_ : Nat
deriving DecidableEq, Repr

namespace InputMemoryStream

/-- `InputMemoryStream::skip`: bounds check, then advance the pointer and
decrease the remaining size. -/
def skip (s : InputMemoryStream) (size : Nat) :
    Except StreamError Unit × InputMemoryStream :=
  if size > s.size_ then
    (.error .malformed_packet, s)
  else
    (.ok (), { buffer_ := s.buffer_.drop size, size_ := s.size_ - size })

/-- `InputMemoryStream::can_read`. -/
def can_read (s : InputMemoryStream) (byte_count : Nat) : Bool :=
  s.size_ ≥ byte_count

/-- `InputMemoryStream::read<T>` for a fixed-width integer type `T` with
`sizeof(T) = w`: check `can_read`, `memcpy` the next `w` bytes into the
value (little-endian host layout), then `skip(w)`. -/
def read (s : InputMemoryStream) (w : Nat) :
    Except StreamError Nat × InputMemoryStream :=
  if ¬ s.can_read w then
    (.error .malformed_packet, s)
  else
    let value := bytesToNatLE (s.buffer_.take w)
    let p := s.skip w
    (p.1.map fun _ => value, p.2)

/-- `InputMemoryStream::read_le<T>`: `le_to_host(read<T>())`. -/
def read_le (s : InputMemoryStream) (w : Nat) :
    Except StreamError Nat × InputMemoryStream :=
  let p := s.read w
  (p.1.map (le_to_host w), p.2)

/-- `InputMemoryStream::read_be<T>`: `be_to_host(read<T>())`. -/
def read_be (s : InputMemoryStream) (w : Nat) :
    Except StreamError Nat × InputMemoryStream :=
  let p := s.read w
  (p.1.map (be_to_host w), p.2)

/-- `InputMemoryStream::read(std::vector<uint8_t>&, size_t)`: check
`can_read(count)`, `value.assign(pointer(), pointer() + count)`, then
`skip(count)`. `value` is the caller's vector (out-parameter); the result
carries the error outcome, the stream state and the vector contents after
the call. -/
def read_vec (s : InputMemoryStream) (value : List Nat) (count : Nat) :
    Except StreamError Unit × InputMemoryStream × List Nat :=
  if ¬ s.can_read count then
    (.error .malformed_packet, s, value)
  else
    let assigned := s.buffer_.take count
    let p := s.skip count
    (p.1, p.2, assigned)

/-- `InputMemoryStream::read(void*, size_t)`: check `can_read`, copy the
next `n` bytes into the caller's output buffer (overwriting its first `n`
bytes), then `skip(n)`. -/
def read_into (s : InputMemoryStream) (output_buffer : List Nat) (n : Nat) :
    Except StreamError Unit × InputMemoryStream × List Nat :=
  if ¬ s.can_read n then
    (.error .malformed_packet, s, output_buffer)
  else
    let copied := s.buffer_.take n ++ output_buffer.drop n
    let p := s.skip n
    (p.1, p.2, copied)

/-- `InputMemoryStream::read(IPv6Address&)`: check
`can_read(address_size)`, construct the address from the raw bytes at the
cursor, then `skip(address_size)`. The address value is modelled from the
spec as its 16-byte raw representation (ipv6_address.h is external). -/
def read_ipv6 (s : InputMemoryStream) :
    Except StreamError (List Nat) × InputMemoryStream :=
  if ¬ s.can_read IPv6_address_size then
    (.error .malformed_packet, s)
  else
    let addr := s.buffer_.take IPv6_address_size
    let p := s.skip IPv6_address_size
    (p.1.map fun _ => addr, p.2)

/-- `InputMemoryStream::read(HWAddress<n>&)`: same shape as the IPv6
overload, with width `n`. -/
def read_hw (s : InputMemoryStream) (n : Nat) :
    Except StreamError (List Nat) × InputMemoryStream :=
  if ¬ s.can_read n then
    (.error .malformed_packet, s)
  else
    let addr := s.buffer_.take n
    let p := s.skip n
    (p.1.map fun _ => addr, p.2)

/-- `InputMemoryStream::size() const` (the spec's `remaining()`). -/
def size (s : InputMemoryStream) : Nat := s.size_

/-- `InputMemoryStream::size(size_t)` (the spec's `truncate`): overwrites
`size_` with the caller-chosen value, no bounds check. -/
def size_set (s : InputMemoryStream) (new_size : Nat) : InputMemoryStream :=
  { s with size_ := new_size }

/-- `InputMemoryStream::operator bool`: truthy iff bytes remain. -/
def toBool (s : InputMemoryStream) : Bool := s.size_ > 0

end InputMemoryStream

/-- Overwrite `src.length` bytes of `data` starting at offset `pos`
(the effect of `memcpy`/`std::copy` into the destination region). -/
def writeAt (data : List Nat) (pos : Nat) (src : List Nat) : List Nat :=
  data.take pos ++ src ++ data.drop (pos + src.length)

/-- `OutputMemoryStream`: `data` is the current contents of the whole
destination region, `pos` is `buffer_ - orig_buffer_` (the write offset),
`size_` is the remaining capacity. The source's two pointers
`orig_buffer_`/`buffer_` are recovered as offsets `0`/`pos` into `data`. -/
structure OutputMemoryStream where
  data : List Nat
  pos : Nat
  size_ : Nat
deriving DecidableEq, Repr

namespace OutputMemoryStream

/-- `OutputMemoryStream::skip`: bounds check (throwing
`malformed_packet`, as the source does), then advance. -/
def skip (s : OutputMemoryStream) (size : Nat) :
    Except StreamError Unit × OutputMemoryStream :=
  if size > s.size_ then
    (.error .malformed_packet, s)
  else
    (.ok (), { s with pos := s.pos + size, size_ := s.size_ - size })

/-- `OutputMemoryStream::write(ForwardIterator, ForwardIterator)` /
`write(const uint8_t*, size_t)`: check capacity (throwing
`serialization_error`), copy the source bytes at the cursor, then
`skip(length)`. `write<T>` instantiates this with the value's raw bytes. -/
def write (s : OutputMemoryStream) (src : List Nat) :
    Except StreamError Unit × OutputMemoryStream :=
  if s.size_ < src.length then
    (.error .serialization_error, s)
  else
    let s1 := { s with data := writeAt s.data s.pos src }
    s1.skip src.length

/-- `OutputMemoryStream::write<T>(const T&)` for a fixed-width integer of
width `w`: `memcpy` the value's host-native (little-endian) bytes. -/
def write_val (s : OutputMemoryStream) (w v : Nat) :
    Except StreamError Unit × OutputMemoryStream :=
  s.write (natToBytesLE w v)

/-- `OutputMemoryStream::write_le<T>`: `write(host_to_le(value))`. -/
def write_le (s : OutputMemoryStream) (w v : Nat) :
    Except StreamError Unit × OutputMemoryStream :=
  s.write_val w (host_to_le w v)

/-- `OutputMemoryStream::write_be<T>`: `write(host_to_be(value))`. -/
def write_be (s : OutputMemoryStream) (w v : Nat) :
    Except StreamError Unit × OutputMemoryStream :=
  s.write_val w (host_to_be w v)

/-- `OutputMemoryStream::write(const IPv6Address&)`: writes the address's
raw byte range (`address.begin()`..`address.end()`). -/
def write_ipv6 (s : OutputMemoryStream) (addr : List Nat) :
    Except StreamError Unit × OutputMemoryStream :=
  s.write addr

/-- `OutputMemoryStream::fill`: check capacity (throwing
`serialization_error`), `std::fill` the next `size` bytes, `skip(size)`. -/
def fill (s : OutputMemoryStream) (size : Nat) (value : Nat) :
    Except StreamError Unit × OutputMemoryStream :=
  if s.size_ < size then
    (.error .serialization_error, s)
  else
    let s1 := { s with data := writeAt s.data s.pos (List.replicate size value) }
    s1.skip size

/-- `OutputMemoryStream::size() const` (the spec's `remaining()`). -/
def size (s : OutputMemoryStream) : Nat := s.size_

/-- `OutputMemoryStream::written_size()`: `buffer_ - orig_buffer_`. -/
def written_size (s : OutputMemoryStream) : Nat := s.pos

end OutputMemoryStream

/-- The ReadCursor interface operations, for claims quantifying over all
operations. `read_ipv4` is the `read(IPv4Address&)` overload, which the
source implements as `read<uint32_t>`. -/
inductive ReadOp where
  | skip (n : Nat)
  | read (w : Nat)
  | read_le (w : Nat)
  | read_be (w : Nat)
  | read_vec (n : Nat)
  | read_into (n : Nat)
  | read_ipv4
  | read_ipv6
  | read_hw (n : Nat)
  | truncate (n : Nat)
deriving DecidableEq, Repr

/-- Run a ReadCursor operation, keeping only the error outcome and the
resulting stream state (out-parameters are fed a fixed initial value). -/
def runReadOp : ReadOp → InputMemoryStream →
    Except StreamError Unit × InputMemoryStream
  | .skip n, s => s.skip n
  | .read w, s => let p := s.read w; (p.1.map fun _ => (), p.2)
  | .read_le w, s => let p := s.read_le w; (p.1.map fun _ => (), p.2)
  | .read_be w, s => let p := s.read_be w; (p.1.map fun _ => (), p.2)
  | .read_vec n, s => let p := s.read_vec [] n; (p.1, p.2.1)
  | .read_into n, s => let p := s.read_into [] n; (p.1, p.2.1)
  | .read_ipv4, s => let p := s.read 4; (p.1.map fun _ => (), p.2)
  | .read_ipv6, s => let p := s.read_ipv6; (p.1.map fun _ => (), p.2)
  | .read_hw n, s => let p := s.read_hw n; (p.1.map fun _ => (), p.2)
  | .truncate n, s => (.ok (), s.size_set n)

/-- The WriteCursor interface operations. `write src` covers the raw,
iterator-range and typed (`write<T>`) writes, which all share one body;
`write_ipv4 v` is the `write(const IPv4Address&)` overload
(`write<uint32_t>` in the source). -/
inductive WriteOp where
  | skip (n : Nat)
  | write (src : List Nat)
  | write_le (w v : Nat)
  | write_be (w v : Nat)
  | write_ipv4 (v : Nat)
  | write_ipv6 (addr : List Nat)
  | fill (n v : Nat)
deriving DecidableEq, Repr

/-- Run a WriteCursor operation. -/
def runWriteOp : WriteOp → OutputMemoryStream →
    Except StreamError Unit × OutputMemoryStream
  | .skip n, s => s.skip n
  | .write src, s => s.write src
  | .write_le w v, s => s.write_le w v
  | .write_be w v, s => s.write_be w v
  | .write_ipv4 v, s => s.write_val 4 v
  | .write_ipv6 a, s => s.write_ipv6 a
  | .fill n v, s => s.fill n v

/-- The byte count a WriteCursor operation requests. -/
def WriteOp.requested : WriteOp → Nat
  | .skip n => n
  | .write src => src.length
  | .write_le w _ => w
  | .write_be w _ => w
  | .write_ipv4 _ => 4
  | .write_ipv6 a => a.length
  | .fill n _ => n

/-- Run a sequence of WriteCursor operations, stopping at the first
failure; `.ok` means every operation in the sequence succeeded. -/
def runWriteSeq : List WriteOp → OutputMemoryStream →
    Except StreamError OutputMemoryStream
  | [], s => .ok s
  | op :: ops, s =>
    match runWriteOp op s with
    | (.ok _, s1) => runWriteSeq ops s1
    | (.error e, _) => .error e

/-! ### Helper lemmas -/

theorem natToBytesLE_length (w v : Nat) : (natToBytesLE w v).length = w := by
  induction w generalizing v with
  | zero => rfl
  | succ w ih => simp [natToBytesLE, ih]

theorem natToBytesLE_mem_lt (w v : Nat) : ∀ b ∈ natToBytesLE w v, b < 256 := by
  induction w generalizing v with
  | zero => simp [natToBytesLE]
  | succ w ih =>
    simp only [natToBytesLE, List.mem_cons, forall_eq_or_imp]
    exact ⟨Nat.mod_lt _ (by omega), ih _⟩

theorem bytesToNatLE_natToBytesLE (w v : Nat) :
    bytesToNatLE (natToBytesLE w v) = v % 256 ^ w := by
  induction w generalizing v with
  | zero => simp [natToBytesLE, bytesToNatLE, Nat.mod_one]
  | succ w ih =>
    simp only [natToBytesLE, bytesToNatLE, ih]
    rw [pow_succ', Nat.mod_mul]

theorem natToBytesLE_bytesToNatLE (bs : List Nat) (hb : ∀ b ∈ bs, b < 256) :
    natToBytesLE bs.length (bytesToNatLE bs) = bs := by
  induction bs with
  | nil => rfl
  | cons b bs ih =>
    have hb1 : b < 256 := hb b (by simp)
    simp only [List.length_cons, natToBytesLE, bytesToNatLE, List.cons.injEq]
    refine ⟨?_, ?_⟩
    · rw [Nat.add_mul_mod_self_left, Nat.mod_eq_of_lt hb1]
    · rw [Nat.add_mul_div_left _ _ (by omega : 0 < 256), Nat.div_eq_of_lt hb1,
        Nat.zero_add]
      exact ih fun x hx => hb x (by simp [hx])

theorem bytesToNatLE_lt (bs : List Nat) (hb : ∀ b ∈ bs, b < 256) :
    bytesToNatLE bs < 256 ^ bs.length := by
  induction bs with
  | nil => simp [bytesToNatLE]
  | cons b bs ih =>
    have hb1 : b < 256 := hb b (by simp)
    have hr : bytesToNatLE bs < 256 ^ bs.length := ih fun x hx => hb x (by simp [hx])
    simp only [bytesToNatLE, List.length_cons, pow_succ']
    omega

theorem byteSwap_lt (w v : Nat) : byteSwap w v < 256 ^ w := by
  have h := bytesToNatLE_lt (natToBytesLE w v).reverse
    (fun b hb => natToBytesLE_mem_lt w v b (List.mem_reverse.mp hb))
  simpa [byteSwap, natToBytesLE_length] using h

theorem byteSwap_byteSwap (w v : Nat) (hv : v < 256 ^ w) :
    byteSwap w (byteSwap w v) = v := by
  unfold byteSwap
  have h1 : ∀ b ∈ (natToBytesLE w v).reverse, b < 256 :=
    fun b hb => natToBytesLE_mem_lt w v b (List.mem_reverse.mp hb)
  have hlen : (natToBytesLE w v).reverse.length = w := by
    simp [natToBytesLE_length]
  rw [show natToBytesLE w (bytesToNatLE (natToBytesLE w v).reverse)
      = natToBytesLE (natToBytesLE w v).reverse.length
          (bytesToNatLE (natToBytesLE w v).reverse) from by rw [hlen],
    natToBytesLE_bytesToNatLE _ h1, List.reverse_reverse,
    bytesToNatLE_natToBytesLE, Nat.mod_eq_of_lt hv]

theorem InputMemoryStream.in_skip_ok (s : InputMemoryStream) (n : Nat)
    (h : n ≤ s.size_) :
    s.skip n = (.ok (), ⟨s.buffer_.drop n, s.size_ - n⟩) := by
  unfold InputMemoryStream.skip
  rw [if_neg (by omega)]

theorem InputMemoryStream.skip_size_le (s : InputMemoryStream) (n : Nat) :
    ((s.skip n).2).size_ ≤ s.size_ := by
  unfold InputMemoryStream.skip
  split <;> simp

theorem OutputMemoryStream.out_skip_ok (s : OutputMemoryStream) (n : Nat)
    (h : n ≤ s.size_) :
    s.skip n = (.ok (), ⟨s.data, s.pos + n, s.size_ - n⟩) := by
  unfold OutputMemoryStream.skip
  rw [if_neg (by omega)]

theorem OutputMemoryStream.skip_data (s : OutputMemoryStream) (n : Nat) :
    ((s.skip n).2).data = s.data := by
  unfold OutputMemoryStream.skip
  split <;> rfl

theorem InputMemoryStream.in_skip_eq (s : InputMemoryStream) (n : Nat) :
    s.skip n =
      if n ≤ s.size_ then (.ok (), ⟨s.buffer_.drop n, s.size_ - n⟩)
      else (.error .malformed_packet, s) := by
  unfold InputMemoryStream.skip
  by_cases h : n ≤ s.size_ <;> simp [h]

theorem InputMemoryStream.read_eq (s : InputMemoryStream) (w : Nat) :
    s.read w =
      if w ≤ s.size_ then
        (.ok (bytesToNatLE (s.buffer_.take w)), ⟨s.buffer_.drop w, s.size_ - w⟩)
      else (.error .malformed_packet, s) := by
  unfold InputMemoryStream.read InputMemoryStream.can_read
  by_cases h : w ≤ s.size_
  · simp [h, in_skip_ok s w h, Except.map]
  · simp [h]

theorem InputMemoryStream.read_vec_eq (s : InputMemoryStream) (value : List Nat)
    (count : Nat) :
    s.read_vec value count =
      if count ≤ s.size_ then
        (.ok (), ⟨s.buffer_.drop count, s.size_ - count⟩, s.buffer_.take count)
      else (.error .malformed_packet, s, value) := by
  unfold InputMemoryStream.read_vec InputMemoryStream.can_read
  by_cases h : count ≤ s.size_
  · simp [h, in_skip_ok s count h]
  · simp [h]

theorem InputMemoryStream.read_into_eq (s : InputMemoryStream)
    (output_buffer : List Nat) (n : Nat) :
    s.read_into output_buffer n =
      if n ≤ s.size_ then
        (.ok (), ⟨s.buffer_.drop n, s.size_ - n⟩,
          s.buffer_.take n ++ output_buffer.drop n)
      else (.error .malformed_packet, s, output_buffer) := by
  unfold InputMemoryStream.read_into InputMemoryStream.can_read
  by_cases h : n ≤ s.size_
  · simp [h, in_skip_ok s n h]
  · simp [h]

theorem InputMemoryStream.read_ipv6_eq (s : InputMemoryStream) :
    s.read_ipv6 =
      if IPv6_address_size ≤ s.size_ then
        (.ok (s.buffer_.take IPv6_address_size),
          ⟨s.buffer_.drop IPv6_address_size, s.size_ - IPv6_address_size⟩)
      else (.error .malformed_packet, s) := by
  unfold InputMemoryStream.read_ipv6 InputMemoryStream.can_read
  by_cases h : IPv6_address_size ≤ s.size_
  · simp [h, in_skip_ok s _ h, Except.map]
  · simp [h]

theorem InputMemoryStream.read_hw_eq (s : InputMemoryStream) (n : Nat) :
    s.read_hw n =
      if n ≤ s.size_ then
        (.ok (s.buffer_.take n), ⟨s.buffer_.drop n, s.size_ - n⟩)
      else (.error .malformed_packet, s) := by
  unfold InputMemoryStream.read_hw InputMemoryStream.can_read
  by_cases h : n ≤ s.size_
  · simp [h, in_skip_ok s n h, Except.map]
  · simp [h]

theorem OutputMemoryStream.out_skip_eq (s : OutputMemoryStream) (n : Nat) :
    s.skip n =
      if n ≤ s.size_ then (.ok (), ⟨s.data, s.pos + n, s.size_ - n⟩)
      else (.error .malformed_packet, s) := by
  unfold OutputMemoryStream.skip
  by_cases h : n ≤ s.size_ <;> simp [h]

theorem OutputMemoryStream.write_eq (s : OutputMemoryStream) (src : List Nat) :
    s.write src =
      if src.length ≤ s.size_ then
        (.ok (), ⟨writeAt s.data s.pos src, s.pos + src.length,
          s.size_ - src.length⟩)
      else (.error .serialization_error, s) := by
  unfold OutputMemoryStream.write
  by_cases h : src.length ≤ s.size_
  · rw [if_neg (by omega)]
    simp [OutputMemoryStream.out_skip_eq, h]
  · rw [if_pos (by omega : s.size_ < src.length), if_neg h]

theorem OutputMemoryStream.fill_eq (s : OutputMemoryStream) (n v : Nat) :
    s.fill n v =
      if n ≤ s.size_ then
        (.ok (), ⟨writeAt s.data s.pos (List.replicate n v), s.pos + n,
          s.size_ - n⟩)
      else (.error .serialization_error, s) := by
  unfold OutputMemoryStream.fill
  by_cases h : n ≤ s.size_
  · rw [if_neg (by omega)]
    simp [OutputMemoryStream.out_skip_eq, h]
  · rw [if_pos (by omega : s.size_ < n), if_neg h]

/-! ### Claim theorems -/

/-- C7: on a ReadCursor over the 4-byte buffer `[0x01,0x02,0x03,0x04]`,
`read_big_endian<uint32>()` returns `0x01020304`, after which
`remaining()` is `0` and the cursor's boolean conversion is `false`. -/
theorem scenario_A_read_be_uint32 :
    (InputMemoryStream.read_be ⟨[0x01, 0x02, 0x03, 0x04], 4⟩ 4).1 = .ok 0x01020304 ∧
    ((InputMemoryStream.read_be ⟨[0x01, 0x02, 0x03, 0x04], 4⟩ 4).2).size = 0 ∧
    ((InputMemoryStream.read_be ⟨[0x01, 0x02, 0x03, 0x04], 4⟩ 4).2).toBool = false :=
  ⟨rfl, rfl, rfl⟩

/-- C8: on a WriteCursor over a fresh 4-byte buffer,
`write_little_endian<uint16>(0x1234)` then
`write_little_endian<uint16>(0x5678)` produces `[0x34,0x12,0x78,0x56]`,
`written_size()` is `4`, and a further 1-byte write fails with
`serialization_error` (`SerializationCapacityExceeded`). -/
theorem scenario_B_write_le_uint16 :
    ((OutputMemoryStream.mk [0, 0, 0, 0] 0 4).write_le 2 0x1234).1 = .ok () ∧
    (((OutputMemoryStream.mk [0, 0, 0, 0] 0 4).write_le 2 0x1234).2.write_le 2 0x5678).1
      = .ok () ∧
    ((((OutputMemoryStream.mk [0, 0, 0, 0] 0 4).write_le 2 0x1234).2.write_le 2
        0x5678).2).data = [0x34, 0x12, 0x78, 0x56] ∧
    ((((OutputMemoryStream.mk [0, 0, 0, 0] 0 4).write_le 2 0x1234).2.write_le 2
        0x5678).2).written_size = 4 ∧
    (((((OutputMemoryStream.mk [0, 0, 0, 0] 0 4).write_le 2 0x1234).2.write_le 2
        0x5678).2).write [0]).1 = .error .serialization_error :=
  ⟨rfl, rfl, rfl, rfl, rfl⟩

/-- C1 counterexample: `OutputMemoryStream::skip` with a request exceeding
the remaining capacity throws `malformed_packet` (`MalformedInput`), not
`serialization_error` (`SerializationCapacityExceeded`), refuting the
claim that every WriteCursor operation fails with
`SerializationCapacityExceeded`. -/
theorem write_skip_raises_malformed_packet :
    ((OutputMemoryStream.mk [] 0 0).skip 1).1 = .error .malformed_packet ∧
    StreamError.malformed_packet ≠ StreamError.serialization_error :=
  ⟨rfl, by decide⟩

/-- C1 (amended): every WriteCursor operation whose requested byte count
exceeds `remaining_capacity` fails; all of them except `skip` fail with
`serialization_error` (`SerializationCapacityExceeded`), while `skip`
fails with `malformed_packet` (`MalformedInput`). -/
theorem writeOp_capacity_error_kind (op : WriteOp) (s : OutputMemoryStream)
    (h : op.requested > s.size_) :
    (runWriteOp op s).1 = .error (match op with
      | .skip _ => .malformed_packet
      | _ => .serialization_error) := by
  cases op <;>
    simp only [WriteOp.requested] at h <;>
    simp only [runWriteOp, OutputMemoryStream.skip, OutputMemoryStream.write,
      OutputMemoryStream.write_le, OutputMemoryStream.write_be,
      OutputMemoryStream.write_val, OutputMemoryStream.write_ipv6,
      OutputMemoryStream.fill, natToBytesLE_length] <;>
    rw [if_pos (by omega)]

/-- C1 (amended) witness: a 1-byte raw write on a zero-capacity cursor
fails with `serialization_error`. -/
theorem writeOp_capacity_error_kind_witness :
    (WriteOp.write [1]).requested > (OutputMemoryStream.mk [] 0 0).size_ ∧
    (runWriteOp (.write [1]) ⟨[], 0, 0⟩).1 = .error .serialization_error :=
  ⟨by decide, writeOp_capacity_error_kind (.write [1]) ⟨[], 0, 0⟩ (by decide)⟩

/-- C5 counterexample: `size(new_size)` (the spec's `truncate`) sets
`remaining_length` with no bounds check, so it can make it larger:
on a cursor with `remaining_length = 0`, `truncate 5` yields
`remaining_length = 5`. -/
theorem truncate_increases_remaining :
    ((runReadOp (.truncate 5) ⟨[], 0⟩).2).size = 5 ∧
    (InputMemoryStream.mk [] 0).size = 0 :=
  ⟨rfl, rfl⟩

/-- C5 (amended): every ReadCursor operation except `truncate` leaves
`remaining_length` no larger than before the call, whether it succeeds or
fails; `truncate` alone can increase it, to the caller-chosen value. -/
theorem readOp_remaining_never_increases (op : ReadOp) (s : InputMemoryStream)
    (h : ∀ n, op ≠ .truncate n) :
    ((runReadOp op s).2).size ≤ s.size := by
  cases op with
  | truncate n => exact absurd rfl (h n)
  | _ =>
    simp only [runReadOp, InputMemoryStream.read, InputMemoryStream.read_le,
      InputMemoryStream.read_be, InputMemoryStream.read_vec,
      InputMemoryStream.read_into, InputMemoryStream.read_ipv6,
      InputMemoryStream.read_hw, InputMemoryStream.size]
    first
      | exact InputMemoryStream.skip_size_le s _
      | (split
         · exact Nat.le_refl _
         · exact InputMemoryStream.skip_size_le s _)

/-- C5 (amended) witness: `skip 1` on a cursor of remaining length 2
leaves remaining length `1 ≤ 2`. -/
theorem readOp_remaining_never_increases_witness :
    (∀ n, ReadOp.skip 1 ≠ .truncate n) ∧
    ((runReadOp (.skip 1) ⟨[7, 8], 2⟩).2).size ≤ (InputMemoryStream.mk [7, 8] 2).size :=
  ⟨(fun _ h => nomatch h),
   readOp_remaining_never_increases (.skip 1) ⟨[7, 8], 2⟩ (fun _ h => nomatch h)⟩

/-- C2: every ReadCursor and WriteCursor operation that fails leaves the
cursor exactly as before the call: the whole stream state (remaining
length / capacity, position, and for the writer the destination contents)
is unchanged. -/
theorem failed_op_leaves_cursor_unchanged :
    (∀ (op : ReadOp) (s : InputMemoryStream) (e : StreamError),
        (runReadOp op s).1 = .error e → (runReadOp op s).2 = s) ∧
    (∀ (op : WriteOp) (s : OutputMemoryStream) (e : StreamError),
        (runWriteOp op s).1 = .error e → (runWriteOp op s).2 = s) := by
  constructor
  · intro op s e h
    cases op <;>
      simp only [runReadOp, InputMemoryStream.read_le, InputMemoryStream.read_be,
        InputMemoryStream.in_skip_eq, InputMemoryStream.read_eq,
        InputMemoryStream.read_vec_eq, InputMemoryStream.read_into_eq,
        InputMemoryStream.read_ipv6_eq, InputMemoryStream.read_hw_eq] at h ⊢ <;>
      first
        | (split at h <;>
            first
              | (rw [if_neg (by omega)])
              | (simp [Except.map] at h))
        | simp_all
  · intro op s e h
    cases op <;>
      simp only [runWriteOp, OutputMemoryStream.write_le,
        OutputMemoryStream.write_be, OutputMemoryStream.write_val,
        OutputMemoryStream.write_ipv6, OutputMemoryStream.out_skip_eq,
        OutputMemoryStream.write_eq, OutputMemoryStream.fill_eq] at h ⊢ <;>
      (split at h <;>
        first
          | (rw [if_neg (by omega)])
          | (simp [Except.map] at h))

/-- C2 witness: `skip 1` on an exhausted ReadCursor fails and leaves the
cursor unchanged. -/
theorem failed_op_leaves_cursor_unchanged_witness :
    (runReadOp (.skip 1) ⟨[], 0⟩).1 = .error .malformed_packet ∧
    (runReadOp (.skip 1) ⟨[], 0⟩).2 = (⟨[], 0⟩ : InputMemoryStream) :=
  ⟨rfl, failed_op_leaves_cursor_unchanged.1 (.skip 1) ⟨[], 0⟩ .malformed_packet rfl⟩

/-- C10: the ReadCursor operations that copy bytes into a caller-supplied
destination (`read(void*, size_t)` and `read(std::vector&, count)`) check
bounds before any byte is copied: when they fail with `malformed_packet`,
both the destination and the cursor are unmodified. -/
theorem failed_read_leaves_destination (s : InputMemoryStream)
    (dest : List Nat) (n : Nat) (e : StreamError) :
    ((s.read_into dest n).1 = .error e →
      (s.read_into dest n).2.2 = dest ∧ (s.read_into dest n).2.1 = s) ∧
    ((s.read_vec dest n).1 = .error e →
      (s.read_vec dest n).2.2 = dest ∧ (s.read_vec dest n).2.1 = s) := by
  rw [InputMemoryStream.read_into_eq, InputMemoryStream.read_vec_eq]
  by_cases hc : n ≤ s.size_ <;> simp [hc]

/-- C10 witness: a 1-byte `read(void*, size_t)` on an exhausted cursor
fails and leaves the destination `[5]` and the cursor unchanged. -/
theorem failed_read_leaves_destination_witness :
    ((InputMemoryStream.mk [] 0).read_into [5] 1).1 = .error .malformed_packet ∧
    ((InputMemoryStream.mk [] 0).read_into [5] 1).2.2 = [5] ∧
    ((InputMemoryStream.mk [] 0).read_into [5] 1).2.1 = (⟨[], 0⟩ : InputMemoryStream) :=
  ⟨rfl, (failed_read_leaves_destination ⟨[], 0⟩ [5] 1 .malformed_packet).1 rfl⟩

/-- C6: a ReadCursor with `remaining_length = k` succeeds on a raw read
of `k` bytes (consuming all of them) and fails with `malformed_packet`
(`MalformedInput`) on a raw read of `k + 1` bytes; a WriteCursor with
`remaining_capacity = k` succeeds on a `k`-byte raw write and fails with
`serialization_error` (`SerializationCapacityExceeded`) on a
`(k + 1)`-byte raw write. -/
theorem boundary_exact_capacity (k : Nat) (s : InputMemoryStream)
    (ws : OutputMemoryStream) (v0 src src' : List Nat)
    (hs : s.size_ = k) (hw : ws.size_ = k)
    (hsrc : src.length = k) (hsrc' : src'.length = k + 1) :
    (s.read_vec v0 k).1 = .ok () ∧ ((s.read_vec v0 k).2.1).size = 0 ∧
    (s.read_vec v0 (k + 1)).1 = .error .malformed_packet ∧
    (ws.write src).1 = .ok () ∧
    (ws.write src').1 = .error .serialization_error := by
  refine ⟨?_, ?_, ?_, ?_, ?_⟩ <;>
    simp only [InputMemoryStream.read_vec_eq, OutputMemoryStream.write_eq,
      InputMemoryStream.size, hs, hw, hsrc, hsrc']
  · rw [if_pos (Nat.le_refl k)]
  · rw [if_pos (Nat.le_refl k)]
    simp
  · rw [if_neg (by omega)]
  · rw [if_pos (Nat.le_refl k)]
  · rw [if_neg (by omega)]

/-- C6 witness: at `k = 2`, with a 2-byte ReadCursor and a 2-byte
WriteCursor, the exact-size operations succeed and the one-larger
operations fail with the respective error kinds. -/
theorem boundary_exact_capacity_witness :
    ((InputMemoryStream.mk [7, 8] 2).read_vec [] 2).1 = .ok () ∧
    (((InputMemoryStream.mk [7, 8] 2).read_vec [] 2).2.1).size = 0 ∧
    ((InputMemoryStream.mk [7, 8] 2).read_vec [] 3).1 = .error .malformed_packet ∧
    ((OutputMemoryStream.mk [0, 0] 0 2).write [1, 2]).1 = .ok () ∧
    ((OutputMemoryStream.mk [0, 0] 0 2).write [1, 2, 3]).1
      = .error .serialization_error :=
  boundary_exact_capacity 2 ⟨[7, 8], 2⟩ ⟨[0, 0], 0, 2⟩ [] [1, 2] [1, 2, 3]
    rfl rfl rfl rfl

/-- Every WriteCursor operation preserves
`written_size + remaining_capacity` (a failing one leaves the cursor
unchanged, a successful one trades capacity for position). -/
theorem runWriteOp_sum (op : WriteOp) (s : OutputMemoryStream) :
    ((runWriteOp op s).2).pos + ((runWriteOp op s).2).size_
      = s.pos + s.size_ := by
  cases op <;>
    simp only [runWriteOp, OutputMemoryStream.write_le,
      OutputMemoryStream.write_be, OutputMemoryStream.write_val,
      OutputMemoryStream.write_ipv6, OutputMemoryStream.out_skip_eq,
      OutputMemoryStream.write_eq, OutputMemoryStream.fill_eq] <;>
    split <;>
    simp <;>
    omega

/-- A sequence of successful WriteCursor operations preserves
`written_size + remaining_capacity`. -/
theorem runWriteSeq_ok_sum (ops : List WriteOp) (s s' : OutputMemoryStream)
    (h : runWriteSeq ops s = .ok s') :
    s'.pos + s'.size_ = s.pos + s.size_ := by
  induction ops generalizing s with
  | nil =>
    simp only [runWriteSeq] at h
    cases h
    rfl
  | cons op ops ih =>
    simp only [runWriteSeq] at h
    rcases hop : runWriteOp op s with ⟨r, s1⟩
    rw [hop] at h
    cases r with
    | error e => simp at h
    | ok u =>
      have hsum := runWriteOp_sum op s
      rw [hop] at hsum
      calc s'.pos + s'.size_ = s1.pos + s1.size_ := ih s1 h
        _ = s.pos + s.size_ := hsum

/-- C3: for a WriteCursor constructed over a region of length `L` and any
sequence of successful write/skip/fill operations, after each operation
`written_size() + remaining_capacity = L`. (Quantifying over all
sequences covers every prefix, i.e. the state after each operation.) -/
theorem written_size_plus_remaining_constant (ops : List WriteOp)
    (region : List Nat) (s' : OutputMemoryStream)
    (h : runWriteSeq ops ⟨region, 0, region.length⟩ = .ok s') :
    s'.written_size + s'.size = region.length := by
  have := runWriteSeq_ok_sum ops ⟨region, 0, region.length⟩ s' h
  simpa [OutputMemoryStream.written_size, OutputMemoryStream.size] using this

/-- C3 witness: the sequence `write [9]; skip 1; fill 1 0` on a 4-byte
region succeeds and ends with `written_size + remaining = 4`. -/
theorem written_size_plus_remaining_constant_witness :
    runWriteSeq [.write [9], .skip 1, .fill 1 0]
        ⟨[0, 0, 0, 0], 0, [0, 0, 0, 0].length⟩
      = .ok ⟨[9, 0, 0, 0], 3, 1⟩ ∧
    (OutputMemoryStream.mk [9, 0, 0, 0] 3 1).written_size
        + (OutputMemoryStream.mk [9, 0, 0, 0] 3 1).size
      = [0, 0, 0, 0].length :=
  ⟨rfl, written_size_plus_remaining_constant [.write [9], .skip 1, .fill 1 0]
    [0, 0, 0, 0] ⟨[9, 0, 0, 0], 3, 1⟩ rfl⟩

/-- Writing `src` into a fresh zero-filled region of length `L ≥ src.length`
succeeds and leaves the region holding `src` followed by zeros. -/
theorem write_fresh (L : Nat) (src : List Nat) (h : src.length ≤ L) :
    (OutputMemoryStream.mk (List.replicate L 0) 0 L).write src
      = (.ok (), ⟨src ++ List.replicate (L - src.length) 0, src.length,
          L - src.length⟩) := by
  rw [OutputMemoryStream.write_eq]
  simp only [writeAt, List.take_zero, List.nil_append, Nat.zero_add,
    List.drop_replicate, if_pos h]

/-- Reading `w` bytes from a cursor over `pre ++ rest` with
`pre.length = w ≤ L` yields exactly `bytesToNatLE pre`. -/
theorem read_head (pre rest : List Nat) (L w : Nat)
    (hp : pre.length = w) (hL : w ≤ L) :
    (InputMemoryStream.mk (pre ++ rest) L).read w
      = (.ok (bytesToNatLE pre), ⟨(pre ++ rest).drop w, L - w⟩) := by
  rw [InputMemoryStream.read_eq]
  simp only [if_pos hL, List.take_left' hp]

/-- C4: for every `w`-byte value `v < 256^w` and every destination length
`L ≥ w`, writing `v` with `write_le` into a fresh buffer and reading with
`read_le` over the resulting bytes yields exactly `v`; the same round-trip
holds for `write_be` followed by `read_be`. -/
theorem endian_roundtrip (w v L : Nat) (hv : v < 256 ^ w) (hL : w ≤ L) :
    ((InputMemoryStream.mk
        (((OutputMemoryStream.mk (List.replicate L 0) 0 L).write_le w v).2.data)
        L).read_le w).1 = .ok v ∧
    ((InputMemoryStream.mk
        (((OutputMemoryStream.mk (List.replicate L 0) 0 L).write_be w v).2.data)
        L).read_be w).1 = .ok v := by
  constructor
  · rw [OutputMemoryStream.write_le, OutputMemoryStream.write_val, host_to_le,
      write_fresh L _ (by rw [natToBytesLE_length]; exact hL)]
    rw [InputMemoryStream.read_le,
      read_head _ _ L w (natToBytesLE_length w v) hL]
    simp [le_to_host, Except.map, bytesToNatLE_natToBytesLE,
      Nat.mod_eq_of_lt hv]
  · rw [OutputMemoryStream.write_be, OutputMemoryStream.write_val, host_to_be,
      write_fresh L _ (by rw [natToBytesLE_length]; exact hL)]
    rw [InputMemoryStream.read_be,
      read_head _ _ L w (natToBytesLE_length w (byteSwap w v)) hL]
    simp only [be_to_host, bytesToNatLE_natToBytesLE,
      Nat.mod_eq_of_lt (byteSwap_lt w v), Except.map]
    rw [byteSwap_byteSwap w v hv]

/-- C4 witness: the round-trip at `w = 2`, `v = 0x1234`, `L = 3`. -/
theorem endian_roundtrip_witness :
    (0x1234 < 256 ^ 2 ∧ 2 ≤ 3) ∧
    ((InputMemoryStream.mk
        (((OutputMemoryStream.mk (List.replicate 3 0) 0 3).write_le 2 0x1234).2.data)
        3).read_le 2).1 = .ok 0x1234 ∧
    ((InputMemoryStream.mk
        (((OutputMemoryStream.mk (List.replicate 3 0) 0 3).write_be 2 0x1234).2.data)
        3).read_be 2).1 = .ok 0x1234 :=
  ⟨⟨by decide, by decide⟩, endian_roundtrip 2 0x1234 3 (by decide) (by decide)⟩

/-- C9: every 16-byte address value written via the `write(IPv6Address)`
overload into a fresh buffer of length `L ≥ 16` and read back via the
`read(IPv6Address)` overload over the resulting bytes yields an identical
address value. -/
theorem address_roundtrip (addr : List Nat) (L : Nat)
    (ha : addr.length = IPv6_address_size) (hL : IPv6_address_size ≤ L) :
    ((InputMemoryStream.mk
        (((OutputMemoryStream.mk (List.replicate L 0) 0 L).write_ipv6 addr).2.data)
        L).read_ipv6).1 = .ok addr := by
  rw [OutputMemoryStream.write_ipv6,
    write_fresh L addr (by rw [ha]; exact hL)]
  rw [InputMemoryStream.read_ipv6_eq]
  simp only [if_pos hL, List.take_left' ha]

/-- C9 witness: the round-trip for the concrete 16-byte address
`[0,1,...,15]` in a 16-byte buffer. -/
theorem address_roundtrip_witness :
    (([0, 1, 2, 3, 4, 5, 6, 7, 8, 9, 10, 11, 12, 13, 14, 15] : List Nat).length
        = IPv6_address_size ∧ IPv6_address_size ≤ 16) ∧
    ((InputMemoryStream.mk
        (((OutputMemoryStream.mk (List.replicate 16 0) 0 16).write_ipv6
            [0, 1, 2, 3, 4, 5, 6, 7, 8, 9, 10, 11, 12, 13, 14, 15]).2.data)
        16).read_ipv6).1
      = .ok [0, 1, 2, 3, 4, 5, 6, 7, 8, 9, 10, 11, 12, 13, 14, 15] :=
  ⟨⟨by decide, by decide⟩,
   address_roundtrip [0, 1, 2, 3, 4, 5, 6, 7, 8, 9, 10, 11, 12, 13, 14, 15] 16
     (by decide) (by decide)⟩

end Memory
end Tins
